import Mathlib

/-!
Verification of DashCraft (src/DashCraft.py), a configuration-driven React
dashboard generator.  The Python source is shallowly embedded: the filesystem
is an explicit state (a list of directory paths plus an association list from
file path to file content), each generator becomes a pure state transformer,
and Python exceptions become `Except` errors.  Paths are modelled as the exact
strings the source constructs via `os.path.join` (POSIX semantics), with no
canonicalization, mirroring what the code passes to `open`/`os.makedirs`.
-/

set_option maxRecDepth 4096

namespace DashCraft

/-! ## String helpers (embedding `str.startswith("/")`, `str.endswith("/")`,
`os.path.join`, `os.path.dirname`, `str.capitalize`, `dict.get`). -/

/-- Embeds Python `s.startswith("/")`. -/
def strStartsWithSlash (s : String) : Bool :=
  match s.data with
  | [] => false
  | c :: _ => decide (c = '/')

/-- Embeds Python `s.endswith("/")`. -/
def strEndsWithSlash (s : String) : Bool :=
  match s.data.reverse with
  | [] => false
  | c :: _ => decide (c = '/')

/-- Embeds POSIX `os.path.join(a, b)`: an absolute second argument discards
the first; otherwise a separator is inserted unless `a` is empty or already
ends in one. -/
def joinPath (a b : String) : String :=
  if strStartsWithSlash b = true then b
  else if a = "" ∨ strEndsWithSlash a = true then a ++ b
  else a ++ "/" ++ b

/-- Embeds POSIX `os.path.dirname(p)`: everything up to the last `/`, with
trailing slashes stripped unless the head consists only of slashes. -/
def dirname (p : String) : String :=
  let keptRev := p.data.reverse.dropWhile (fun c => c ≠ '/')
  match keptRev with
  | [] => ""
  | _ =>
    if keptRev.all (fun c => c = '/') then String.mk keptRev.reverse
    else String.mk (keptRev.dropWhile (fun c => c = '/')).reverse

/-- Embeds Python `s.capitalize()`: first character uppercased and **all
remaining characters lowercased** (ASCII case mapping suffices here). -/
def pyCapitalize (s : String) : String :=
  match s.data with
  | [] => ""
  | c :: cs => String.mk (c.toUpper :: cs.map Char.toLower)

/-- First-match lookup in an association list (Python `dict` access; keys are
unique in a Python dict, so first-match agrees with dict semantics). -/
def alistGet? : List (String × String) → String → Option String
  | [], _ => none
  | (k, v) :: rest, key => if k = key then some v else alistGet? rest key

/-- Embeds Python `d.get(key, default)`. -/
def dictGet (d : List (String × String)) (key dflt : String) : String :=
  (alistGet? d key).getD dflt

/-! ## Filesystem state -/

/-- Filesystem model: the set of existing directories (as the exact path
strings handed to `os.makedirs`) and the files on disk (path ↦ content). -/
structure FsState where
  dirs : List String
  files : List (String × String)
deriving Repr, DecidableEq

def emptyFs : FsState := ⟨[], []⟩

/-- Errors surfaced by the generation pipeline.  `keyError` embeds the Python
`KeyError` raised by `component["id"]`; `fileExists` embeds the
`FileExistsError` `os.makedirs` raises when `exist_ok=False`. -/
inductive GenError where
  | keyError (key : String)
  | fileExists (p : String)
deriving Repr, DecidableEq

/-- Create one directory if missing (the state change of a successful
`os.makedirs` call; parent paths are abstracted into the path string). -/
def mkdirp (st : FsState) (p : String) : FsState :=
  if p ∈ st.dirs then st else ⟨st.dirs ++ [p], st.files⟩

/-- Embeds `os.makedirs(p, exist_ok=existOk)`: raises `FileExistsError` when
the directory exists and `exist_ok` is false, else ensures it exists. -/
def makedirs (st : FsState) (p : String) (existOk : Bool) : Except GenError FsState :=
  if p ∈ st.dirs ∧ existOk = false then .error (.fileExists p)
  else .ok (mkdirp st p)

/-- Write-or-overwrite of one entry in the file map (Python
`open(p, "w").write(c)`). -/
def setFile : List (String × String) → String → String → List (String × String)
  | [], p, c => [(p, c)]
  | (q, v) :: rest, p, c => if q = p then (q, c) :: rest else (q, v) :: setFile rest p c

def writeFile (st : FsState) (p c : String) : FsState :=
  ⟨st.dirs, setFile st.files p c⟩

/-! ## Project structure (src/DashCraft.py lines 18-21 and 85-95) -/

/-- `PROJECT_STRUCTURE` constant, lines 18-21 (dict in insertion order). -/
def PROJECT_STRUCTURE : List (String × List String) :=
  [("public", []),
   ("src", ["components", "layouts", "pages", "services", "themes", "utils", "mockData"])]

/-- Inner loop of `create_project_structure`: `os.makedirs` for each
subfolder, `exist_ok=True`. -/
def mkSubdirs (st : FsState) (folderPath : String) : List String → Except GenError FsState
  | [] => .ok st
  | sub :: rest => do
    let st2 ← makedirs st (joinPath folderPath sub) true
    mkSubdirs st2 folderPath rest

/-- Embeds `create_project_structure(base_dir, structure)`, lines 85-95. -/
def create_project_structure (st : FsState) (base_dir : String) :
    List (String × List String) → Except GenError FsState
  | [] => .ok st
  | (folder, subfolders) :: rest => do
    let st2 ← makedirs st (joinPath base_dir folder) true
    let st3 ← mkSubdirs st2 (joinPath base_dir folder) subfolders
    create_project_structure st3 base_dir rest

/-! ## Configuration model (the YAML dict handed to `main`) -/

/-- One entry of `config["components"]`.  `id?`/`options?` are `none` when the
key is absent from the Python dict. -/
structure Component where
  id? : Option String
  options? : Option (List (String × String))
deriving Repr, DecidableEq

/-- The parsed configuration: `main` reads `config.get("components", [])` and
`config.get("theme", {})`. -/
structure Config where
  components? : Option (List Component)
  theme? : Option (List (String × String))
deriving Repr, DecidableEq

/-! ## Generators (src/DashCraft.py lines 98-239) -/

/-- Component template, lines 104-116, rendered by `template.format`
(`{{`/`}}` unescape to literal braces). -/
def componentTemplate (name title : String) : String :=
  "\nimport React from \x27react\x27;\n\nconst " ++ name ++
  " = () => \x7b\n    return (\n        <div>\n            <h1>" ++ title ++
  "</h1>\n        </div>\n    );\n\x7d;\n\nexport default " ++ name ++ ";\n    "

/-- `file_path` computed at line 121:
`os.path.join(output_dir, "src", "components", component id + ".js")`. -/
def component_file_path (output_dir id : String) : String :=
  joinPath (joinPath (joinPath output_dir "src") "components") (id ++ ".js")

/-- Content computed at lines 117-120 of `generate_component`. -/
def component_content (component : Component) (id : String) : String :=
  componentTemplate (pyCapitalize id)
    (dictGet (component.options?.getD []) "title" "Component")

/-- Embeds `generate_component(component, output_dir)`, lines 98-124.
`component["id"]` raises `KeyError` when the key is absent, before any
filesystem effect; otherwise the directory of the file is ensured
(`os.makedirs(..., exist_ok=True)`, modelled by `mkdirp`, see
`makedirs_true_eq`) and the rendered content written. -/
def generate_component (st : FsState) (component : Component) (output_dir : String) :
    Except GenError FsState :=
  match component.id? with
  | none => .error (.keyError "id")
  | some id =>
    let file_path := component_file_path output_dir id
    .ok (writeFile (mkdirp st (dirname file_path)) file_path
          (component_content component id))

/-- Theme template, lines 133-149. -/
def themeTemplate (mode primaryColor secondaryColor : String) : String :=
  "\nimport \x7b createTheme \x7d from \x27@mui/material/styles\x27;\n\nconst theme = createTheme(\x7b\n    palette: \x7b\n        mode: \x27" ++
  mode ++ "\x27,\n        primary: \x7b\n            main: \x27" ++
  primaryColor ++ "\x27,\n        \x7d,\n        secondary: \x7b\n            main: \x27" ++
  secondaryColor ++ "\x27,\n        \x7d,\n    \x7d,\n\x7d);\n\nexport default theme;\n    "

/-- `os.path.join(output_dir, "src", "themes", "theme.js")`, line 155. -/
def theme_file_path (output_dir : String) : String :=
  joinPath (joinPath (joinPath output_dir "src") "themes") "theme.js"

/-- Content computed at lines 150-154 (`theme.get` defaults). -/
def themeContent (theme : List (String × String)) : String :=
  themeTemplate (dictGet theme "mode" "light")
    (dictGet theme "primaryColor" "#1976d2")
    (dictGet theme "secondaryColor" "#ff4081")

/-- Embeds `generate_theme(theme, output_dir)`, lines 127-158 (total: its only
filesystem calls are `os.makedirs(..., exist_ok=True)` and the write). -/
def generate_theme (st : FsState) (theme : List (String × String)) (output_dir : String) :
    FsState :=
  writeFile (mkdirp st (dirname (theme_file_path output_dir)))
    (theme_file_path output_dir) (themeContent theme)

/-- Fixed content of `src/index.js`, lines 165-176. -/
def indexContent : String :=
  "\nimport React from \x27react\x27;\nimport ReactDOM from \x27react-dom\x27;\nimport App from \x27./App\x27;\n\nReactDOM.render(\n    <React.StrictMode>\n        <App />\n    </React.StrictMode>,\n    document.getElementById(\x27root\x27)\n);\n    "

def index_file_path (output_dir : String) : String :=
  joinPath (joinPath output_dir "src") "index.js"

/-- Embeds `generate_index_js(output_dir)`, lines 161-180. -/
def generate_index_js (st : FsState) (output_dir : String) : FsState :=
  writeFile (mkdirp st (dirname (index_file_path output_dir)))
    (index_file_path output_dir) indexContent

/-- Fixed content of `src/App.js`, lines 187-205. -/
def appContent : String :=
  "\nimport React from \x27react\x27;\nimport \x27./App.css\x27;\nimport ThemeProvider from \x27@mui/material/styles/ThemeProvider\x27;\nimport theme from \x27./themes/theme\x27;\n\nfunction App() \x7b\n    return (\n        <ThemeProvider theme=\x7btheme\x7d>\n            <div>\n                <h1>Welcome to DashCraft!</h1>\n                <p>Your dashboard is ready to go.</p>\n            </div>\n        </ThemeProvider>\n    );\n\x7d\n\nexport default App;\n    "

def app_file_path (output_dir : String) : String :=
  joinPath (joinPath output_dir "src") "App.js"

/-- Embeds `generate_app_js(output_dir)`, lines 183-209. -/
def generate_app_js (st : FsState) (output_dir : String) : FsState :=
  writeFile (mkdirp st (dirname (app_file_path output_dir)))
    (app_file_path output_dir) appContent

/-- Fixed content of `package.json`, lines 216-236. -/
def packageContent : String :=
  "\n\x7b\n  \"name\": \"dashcraft-app\",\n  \"version\": \"1.0.0\",\n  \"private\": true,\n  \"dependencies\": \x7b\n    \"@mui/material\": \"^5.0.0\",\n    \"@emotion/react\": \"^11.0.0\",\n    \"@emotion/styled\": \"^11.0.0\",\n    \"react\": \"^18.0.0\",\n    \"react-dom\": \"^18.0.0\",\n    \"react-scripts\": \"5.0.0\"\n  \x7d,\n  \"scripts\": \x7b\n    \"start\": \"react-scripts start\",\n    \"build\": \"react-scripts build\",\n    \"test\": \"react-scripts test\",\n    \"eject\": \"react-scripts eject\"\n  \x7d\n\x7d\n    "

def package_file_path (output_dir : String) : String :=
  joinPath output_dir "package.json"

/-- Embeds `generate_package_json(output_dir)`, lines 212-239 (no `makedirs`
call in the source). -/
def generate_package_json (st : FsState) (output_dir : String) : FsState :=
  writeFile st (package_file_path output_dir) packageContent

/-! ## The generation pipeline (`main`, branch `choice == "1"`, lines 249-262) -/

/-- The component loop at lines 259-260; an uncaught exception aborts the run,
leaving the state written so far. -/
def genComponents (st : FsState) (comps : List Component) (output_dir : String) :
    FsState × Option GenError :=
  match comps with
  | [] => (st, none)
  | c :: rest =>
    match generate_component st c output_dir with
    | .error e => (st, some e)
    | .ok st2 => genComponents st2 rest output_dir

/-- Embeds the generation run of `main` (lines 255-261): structure, index.js,
App.js, package.json, one file per component, theme — in source order.
Returns the final filesystem state together with the uncaught exception, if
any (partial output is left in place). -/
def generateProject (config : Config) (output_dir : String) (st : FsState) :
    FsState × Option GenError :=
  match create_project_structure st output_dir PROJECT_STRUCTURE with
  | .error e => (st, some e)
  | .ok st1 =>
    let st2 := generate_index_js st1 output_dir
    let st3 := generate_app_js st2 output_dir
    let st4 := generate_package_json st3 output_dir
    match genComponents st4 (config.components?.getD []) output_dir with
    | (st5, some e) => (st5, some e)
    | (st5, none) => (generate_theme st5 (config.theme?.getD []) output_dir, none)

/-! ## The purge operation.

`main` (line 265) calls `purge_dashboard(target_dir)`, but no definition of
`purge_dashboard` appears anywhere in the repository source. -/

inductive PurgeError where
  | unsafePurge (target : String)
  | filesystemError (target : String)
deriving Repr, DecidableEq

/-- `p` lies strictly inside the tree rooted at `target`. -/
def underPath (target p : String) : Bool :=
  List.isPrefixOf (target ++ "/").data p.data

/-- Modelled from the spec: `purge_dashboard` is invoked at
src/DashCraft.py:265 but its definition is missing from the reviewed source.
Following spec §4.7/§8: refuse (fail, not no-op) on an empty target, a
filesystem root, or an ancestor of the process working directory `cwd`;
verify the target exists and is a directory before deleting, reporting a
`FilesystemError` otherwise; then remove the entire tree rooted at the
target, including the target itself. -/
def purge_dashboard (cwd : String) (st : FsState) (target : String) :
    Except PurgeError FsState :=
  if target = "" ∨ target = "/" ∨ underPath target cwd = true then
    .error (.unsafePurge target)
  else if target ∈ st.dirs then
    .ok ⟨st.dirs.filter (fun d => ¬(d = target ∨ underPath target d = true)),
         st.files.filter (fun f => ¬(f.1 = target ∨ underPath target f.1 = true))⟩
  else
    .error (.filesystemError target)

/-! ## Derived definitions used by the specifications below -/

/-- Spec reading for claim C1: the component id with its first letter
uppercased and the rest left unchanged ("first letter uppercased").  Compare
with `pyCapitalize`, the embedding of what the source actually does. -/
def upperFirst (s : String) : String :=
  match s.data with
  | [] => ""
  | c :: cs => String.mk (c.toUpper :: cs)

/-- Left-biased choice on `Option` (explicit, to keep rewriting simple). -/
def oOr (a b : Option String) : Option String :=
  match a with
  | some v => some v
  | none => b

/-- The write a single `setFile` contributes at key `p`. -/
def writeAt (path content p : String) : Option String :=
  if path = p then some content else none

def mkSubdirsT (st : FsState) (folderPath : String) : List String → FsState
  | [] => st
  | sub :: rest => mkSubdirsT (mkdirp st (joinPath folderPath sub)) folderPath rest

def createT (st : FsState) (base_dir : String) : List (String × List String) → FsState
  | [] => st
  | (folder, subfolders) :: rest =>
    createT (mkSubdirsT (mkdirp st (joinPath base_dir folder))
      (joinPath base_dir folder) subfolders) base_dir rest

def allHaveIds (comps : List Component) : Bool :=
  comps.all (fun c => c.id?.isSome)

/-- Content left at `p` by the component loop (later writes shadow earlier
ones; the loop aborts at the first component without an id). -/
def compLast (out p : String) : List Component → Option String
  | [] => none
  | c :: rest =>
    match c.id? with
    | none => none
    | some id =>
      oOr (compLast out p rest)
        (writeAt (component_file_path out id) (component_content c id) p)

/-- Content left at `p` by one whole generation run. -/
def runLast (cfg : Config) (out p : String) : Option String :=
  let comps := cfg.components?.getD []
  let fixedW := oOr (writeAt (package_file_path out) packageContent p)
    (oOr (writeAt (app_file_path out) appContent p)
      (writeAt (index_file_path out) indexContent p))
  let compsW := oOr (compLast out p comps) fixedW
  if allHaveIds comps = true then
    oOr (writeAt (theme_file_path out) (themeContent (cfg.theme?.getD [])) p) compsW
  else compsW

/-- State after the structure step and the three fixed generators (the part
of the run preceding the component loop). -/
def fixedStage (st : FsState) (out : String) : FsState :=
  generate_package_json
    (generate_app_js (generate_index_js (createT st out PROJECT_STRUCTURE) out) out)
    out

/-- The file written for a component (path and content). -/
def componentFile (out : String) (c : Component) : String × String :=
  (component_file_path out (c.id?.getD ""), component_content c (c.id?.getD ""))

/-! ## Generic list/string lemmas -/

theorem strExt {a b : String} (h : a.data = b.data) : a = b := by
  cases a; cases b; exact congrArg String.mk h

theorem strData_append (a b : String) : (a ++ b).data = a.data ++ b.data := rfl

theorem strEq_iff_data {a b : String} : a = b ↔ a.data = b.data :=
  ⟨fun h => h ▸ rfl, strExt⟩

theorem takeAppendOfLe {α : Type} (n : Nat) :
    ∀ (l₁ l₂ : List α), n ≤ l₁.length → (l₁ ++ l₂).take n = l₁.take n := by
  induction n with
  | zero => intro l₁ l₂ _; simp
  | succ n ih =>
    intro l₁ l₂ h
    cases l₁ with
    | nil => simp at h
    | cons a t =>
      simp only [List.cons_append, List.take_succ_cons]
      rw [ih t l₂ (Nat.le_of_succ_le_succ h)]

theorem appendLeftCancel {α : Type} :
    ∀ (a b c : List α), a ++ b = a ++ c → b = c := by
  intro a
  induction a with
  | nil => intro b c h; simpa using h
  | cons x t ih =>
    intro b c h
    simp only [List.cons_append, List.cons.injEq] at h
    exact ih b c h.2

theorem appendRightCancel {α : Type} (a b c : List α) (h : a ++ c = b ++ c) :
    a = b := by
  have h2 : c.reverse ++ a.reverse = c.reverse ++ b.reverse := by
    rw [← List.reverse_append, ← List.reverse_append, h]
  have h3 := appendLeftCancel c.reverse a.reverse b.reverse h2
  have h4 := congrArg List.reverse h3
  simpa using h4

/-- If a list starts with a concrete block whose first `n` elements differ
from those of the target, the whole lists differ. -/
theorem appendNeOfTakeNe {α : Type} (pre x y : List α) (n : Nat)
    (hn : n ≤ pre.length) (h : pre.take n ≠ y.take n) : pre ++ x ≠ y := by
  intro he
  exact h (by rw [← he, takeAppendOfLe n pre x hn])

/-! ## String-predicate lemmas -/

theorem strStartsWithSlash_append_left {s t : String}
    (hs : strStartsWithSlash s = false) (ht : strStartsWithSlash t = false) :
    strStartsWithSlash (s ++ t) = false := by
  unfold strStartsWithSlash at *
  rw [strData_append]
  cases hd : s.data with
  | nil => simpa [hd] using ht
  | cons c l =>
    rw [hd] at hs
    simpa using hs

theorem strEndsWithSlash_append {s t : String} (ht : t.data ≠ []) :
    strEndsWithSlash (s ++ t) = strEndsWithSlash t := by
  unfold strEndsWithSlash
  rw [strData_append, List.reverse_append]
  cases hr : t.data.reverse with
  | nil => exact absurd (by simpa using congrArg List.reverse hr) ht
  | cons c l => rfl

theorem strAppend_ne_empty {s t : String} (ht : t.data ≠ []) : s ++ t ≠ "" := by
  intro h
  rw [strEq_iff_data, strData_append] at h
  rcases List.append_eq_nil.mp h with ⟨-, h2⟩
  exact ht h2

/-! ## `joinPath` evaluation -/

theorem joinPath_eval {a b : String} (hb : strStartsWithSlash b = false)
    (ha1 : a ≠ "") (ha2 : strEndsWithSlash a = false) :
    joinPath a b = a ++ "/" ++ b := by
  unfold joinPath
  rw [hb]
  simp only [Bool.false_eq_true, if_false]
  rw [if_neg]
  rintro (h | h)
  · exact ha1 h
  · rw [ha2] at h; exact Bool.false_ne_true h

theorem joinPath_abs {a b : String} (hb : strStartsWithSlash b = true) :
    joinPath a b = b := by
  unfold joinPath; rw [hb]; simp

theorem concat5 (A B C D E G X : List Char) (h : A ++ (B ++ (C ++ (D ++ E))) = G) :
    A ++ (B ++ (C ++ (D ++ (E ++ X)))) = G ++ X := by
  subst h; simp [List.append_assoc]

/-! ## Path evaluation under a well-formed output root
(nonempty, not ending in a separator) and separator-free component ids. -/

theorem package_file_path_eval {out : String} (h1 : out ≠ "")
    (h2 : strEndsWithSlash out = false) :
    package_file_path out = out ++ "/package.json" := by
  unfold package_file_path
  rw [joinPath_eval (by decide) h1 h2]
  apply strExt
  simp only [strData_append, List.append_assoc]
  exact congrArg (out.data ++ ·) (by decide)

theorem index_file_path_eval {out : String} (h1 : out ≠ "")
    (h2 : strEndsWithSlash out = false) :
    index_file_path out = out ++ "/src/index.js" := by
  unfold index_file_path
  rw [joinPath_eval (by decide) h1 h2,
      joinPath_eval (by decide) (strAppend_ne_empty (by decide))
        (by rw [strEndsWithSlash_append (by decide)]; decide)]
  apply strExt
  simp only [strData_append, List.append_assoc]
  exact congrArg (out.data ++ ·) (by decide)

theorem app_file_path_eval {out : String} (h1 : out ≠ "")
    (h2 : strEndsWithSlash out = false) :
    app_file_path out = out ++ "/src/App.js" := by
  unfold app_file_path
  rw [joinPath_eval (by decide) h1 h2,
      joinPath_eval (by decide) (strAppend_ne_empty (by decide))
        (by rw [strEndsWithSlash_append (by decide)]; decide)]
  apply strExt
  simp only [strData_append, List.append_assoc]
  exact congrArg (out.data ++ ·) (by decide)

theorem theme_file_path_eval {out : String} (h1 : out ≠ "")
    (h2 : strEndsWithSlash out = false) :
    theme_file_path out = out ++ "/src/themes/theme.js" := by
  unfold theme_file_path
  rw [joinPath_eval (by decide) h1 h2,
      joinPath_eval (by decide) (strAppend_ne_empty (by decide))
        (by rw [strEndsWithSlash_append (by decide)]; decide),
      joinPath_eval (by decide) (strAppend_ne_empty (by decide))
        (by rw [strEndsWithSlash_append (by decide)]; decide)]
  apply strExt
  simp only [strData_append, List.append_assoc]
  exact congrArg (out.data ++ ·) (by decide)

theorem component_file_path_eval {out id : String} (h1 : out ≠ "")
    (h2 : strEndsWithSlash out = false) (h3 : strStartsWithSlash id = false) :
    component_file_path out id = out ++ "/src/components/" ++ id ++ ".js" := by
  unfold component_file_path
  rw [joinPath_eval (by decide) h1 h2,
      joinPath_eval (by decide) (strAppend_ne_empty (by decide))
        (by rw [strEndsWithSlash_append (by decide)]; decide),
      joinPath_eval (strStartsWithSlash_append_left h3 (by decide))
        (strAppend_ne_empty (by decide))
        (by rw [strEndsWithSlash_append (by decide)]; decide)]
  apply strExt
  simp only [strData_append, List.append_assoc]
  exact congrArg (out.data ++ ·) (concat5 _ _ _ _ _ _ _ (by decide))

/-! ## Distinctness of the output paths -/

theorem compPath_ne_index {out id : String} (h1 : out ≠ "")
    (h2 : strEndsWithSlash out = false) (h3 : strStartsWithSlash id = false) :
    component_file_path out id ≠ index_file_path out := by
  intro h
  rw [component_file_path_eval h1 h2 h3, index_file_path_eval h1 h2,
      strEq_iff_data] at h
  simp only [strData_append, List.append_assoc] at h
  exact appendNeOfTakeNe _ _ _ 7 (by decide) (by decide)
    (appendLeftCancel out.data _ _ h)

theorem compPath_ne_app {out id : String} (h1 : out ≠ "")
    (h2 : strEndsWithSlash out = false) (h3 : strStartsWithSlash id = false) :
    component_file_path out id ≠ app_file_path out := by
  intro h
  rw [component_file_path_eval h1 h2 h3, app_file_path_eval h1 h2,
      strEq_iff_data] at h
  simp only [strData_append, List.append_assoc] at h
  exact appendNeOfTakeNe _ _ _ 6 (by decide) (by decide)
    (appendLeftCancel out.data _ _ h)

theorem compPath_ne_package {out id : String} (h1 : out ≠ "")
    (h2 : strEndsWithSlash out = false) (h3 : strStartsWithSlash id = false) :
    component_file_path out id ≠ package_file_path out := by
  intro h
  rw [component_file_path_eval h1 h2 h3, package_file_path_eval h1 h2,
      strEq_iff_data] at h
  simp only [strData_append, List.append_assoc] at h
  exact appendNeOfTakeNe _ _ _ 2 (by decide) (by decide)
    (appendLeftCancel out.data _ _ h)

theorem compPath_ne_theme {out id : String} (h1 : out ≠ "")
    (h2 : strEndsWithSlash out = false) (h3 : strStartsWithSlash id = false) :
    component_file_path out id ≠ theme_file_path out := by
  intro h
  rw [component_file_path_eval h1 h2 h3, theme_file_path_eval h1 h2,
      strEq_iff_data] at h
  simp only [strData_append, List.append_assoc] at h
  exact appendNeOfTakeNe _ _ _ 7 (by decide) (by decide)
    (appendLeftCancel out.data _ _ h)

theorem compPath_inj {out id1 id2 : String} (h1 : out ≠ "")
    (h2 : strEndsWithSlash out = false) (h3 : strStartsWithSlash id1 = false)
    (h4 : strStartsWithSlash id2 = false)
    (h : component_file_path out id1 = component_file_path out id2) :
    id1 = id2 := by
  rw [component_file_path_eval h1 h2 h3, component_file_path_eval h1 h2 h4,
      strEq_iff_data] at h
  simp only [strData_append, List.append_assoc] at h
  have h5 := appendLeftCancel _ _ _ (appendLeftCancel out.data _ _ h)
  exact strExt (appendRightCancel _ _ _ h5)

theorem index_ne_app {out : String} (h1 : out ≠ "")
    (h2 : strEndsWithSlash out = false) :
    index_file_path out ≠ app_file_path out := by
  intro h
  rw [index_file_path_eval h1 h2, app_file_path_eval h1 h2, strEq_iff_data] at h
  simp only [strData_append] at h
  exact absurd (appendLeftCancel out.data _ _ h) (by decide)

theorem index_ne_package {out : String} (h1 : out ≠ "")
    (h2 : strEndsWithSlash out = false) :
    index_file_path out ≠ package_file_path out := by
  intro h
  rw [index_file_path_eval h1 h2, package_file_path_eval h1 h2,
      strEq_iff_data] at h
  simp only [strData_append] at h
  exact absurd (appendLeftCancel out.data _ _ h) (by decide)

theorem app_ne_package {out : String} (h1 : out ≠ "")
    (h2 : strEndsWithSlash out = false) :
    app_file_path out ≠ package_file_path out := by
  intro h
  rw [app_file_path_eval h1 h2, package_file_path_eval h1 h2,
      strEq_iff_data] at h
  simp only [strData_append] at h
  exact absurd (appendLeftCancel out.data _ _ h) (by decide)

theorem theme_ne_index {out : String} (h1 : out ≠ "")
    (h2 : strEndsWithSlash out = false) :
    theme_file_path out ≠ index_file_path out := by
  intro h
  rw [theme_file_path_eval h1 h2, index_file_path_eval h1 h2,
      strEq_iff_data] at h
  simp only [strData_append] at h
  exact absurd (appendLeftCancel out.data _ _ h) (by decide)

theorem theme_ne_app {out : String} (h1 : out ≠ "")
    (h2 : strEndsWithSlash out = false) :
    theme_file_path out ≠ app_file_path out := by
  intro h
  rw [theme_file_path_eval h1 h2, app_file_path_eval h1 h2,
      strEq_iff_data] at h
  simp only [strData_append] at h
  exact absurd (appendLeftCancel out.data _ _ h) (by decide)

theorem theme_ne_package {out : String} (h1 : out ≠ "")
    (h2 : strEndsWithSlash out = false) :
    theme_file_path out ≠ package_file_path out := by
  intro h
  rw [theme_file_path_eval h1 h2, package_file_path_eval h1 h2,
      strEq_iff_data] at h
  simp only [strData_append] at h
  exact absurd (appendLeftCancel out.data _ _ h) (by decide)

/-! ## File-map lemmas -/

theorem oOr_none (b : Option String) : oOr none b = b := rfl

theorem oOr_some (v : String) (b : Option String) : oOr (some v) b = some v := rfl

theorem oOr_assoc (a b c : Option String) :
    oOr (oOr a b) c = oOr a (oOr b c) := by
  cases a <;> rfl

theorem oOr_self_absorb (a b : Option String) : oOr a (oOr a b) = oOr a b := by
  cases a <;> rfl

theorem alistGet?_setFile (fs : List (String × String)) (path content p : String) :
    alistGet? (setFile fs path content) p =
      oOr (writeAt path content p) (alistGet? fs p) := by
  induction fs with
  | nil =>
    by_cases h : path = p <;> simp [setFile, alistGet?, writeAt, h, oOr]
  | cons qv rest ih =>
    obtain ⟨q, v⟩ := qv
    by_cases hq : q = path
    · subst hq
      by_cases hp : q = p
      · subst hp; simp [setFile, alistGet?, writeAt, oOr]
      · simp [setFile, alistGet?, writeAt, hp, oOr]
    · by_cases hp : q = p
      · subst hp
        have : path ≠ q := fun h => hq h.symm
        simp [setFile, alistGet?, writeAt, hq, this, oOr]
      · simp [setFile, alistGet?, writeAt, hq, hp, ih]

theorem setFile_fresh (fs : List (String × String)) (p c : String)
    (h : ∀ e ∈ fs, e.1 ≠ p) : setFile fs p c = fs ++ [(p, c)] := by
  induction fs with
  | nil => rfl
  | cons qv rest ih =>
    obtain ⟨q, v⟩ := qv
    have hq : q ≠ p := h (q, v) (by simp)
    simp only [setFile, if_neg hq, List.cons_append, List.cons.injEq, true_and]
    exact ih (fun e he => h e (by simp [he]))

theorem setFile_length_ge (fs : List (String × String)) (p c : String) :
    fs.length ≤ (setFile fs p c).length := by
  induction fs with
  | nil => simp [setFile]
  | cons qv rest ih =>
    obtain ⟨q, v⟩ := qv
    by_cases h : q = p
    · simp [setFile, h]
    · simp only [setFile, if_neg h, List.length_cons]
      omega

theorem mkdirp_files (st : FsState) (p : String) :
    (mkdirp st p).files = st.files := by
  unfold mkdirp; split <;> rfl

theorem mkdirp_dirs_mono {st : FsState} {q : String} (p : String)
    (h : q ∈ st.dirs) : q ∈ (mkdirp st p).dirs := by
  unfold mkdirp; split
  · exact h
  · simp [h]

theorem mkdirp_dirs_self (st : FsState) (p : String) : p ∈ (mkdirp st p).dirs := by
  unfold mkdirp; split
  · assumption
  · simp

theorem mkdirp_of_mem {st : FsState} {p : String} (h : p ∈ st.dirs) :
    mkdirp st p = st := by
  unfold mkdirp; simp [h]

theorem makedirs_true_eq (st : FsState) (p : String) :
    makedirs st p true = .ok (mkdirp st p) := by
  unfold makedirs
  rw [if_neg]
  rintro ⟨-, h⟩
  exact absurd h (by decide)

/-! ## Total form of the structure builder and its properties -/

theorem mkSubdirs_eq (st : FsState) (fp : String) (l : List String) :
    mkSubdirs st fp l = .ok (mkSubdirsT st fp l) := by
  induction l generalizing st with
  | nil => rfl
  | cons sub rest ih =>
    unfold mkSubdirs
    rw [makedirs_true_eq]
    exact ih _

theorem create_project_structure_eq (st : FsState) (base : String)
    (l : List (String × List String)) :
    create_project_structure st base l = .ok (createT st base l) := by
  induction l generalizing st with
  | nil => rfl
  | cons fs rest ih =>
    obtain ⟨folder, subs⟩ := fs
    unfold create_project_structure
    rw [makedirs_true_eq]
    show (do
        let st3 ← mkSubdirs (mkdirp st (joinPath base folder))
          (joinPath base folder) subs
        create_project_structure st3 base rest) =
      Except.ok (createT st base ((folder, subs) :: rest))
    rw [mkSubdirs_eq]
    exact ih _

theorem mkSubdirsT_files (st : FsState) (fp : String) (l : List String) :
    (mkSubdirsT st fp l).files = st.files := by
  induction l generalizing st with
  | nil => rfl
  | cons sub rest ih => simp [mkSubdirsT, ih, mkdirp_files]

theorem createT_files (st : FsState) (base : String)
    (l : List (String × List String)) : (createT st base l).files = st.files := by
  induction l generalizing st with
  | nil => rfl
  | cons fs rest ih =>
    obtain ⟨folder, subs⟩ := fs
    simp [createT, ih, mkSubdirsT_files, mkdirp_files]

theorem mkSubdirsT_dirs_mono {st : FsState} {q : String} (fp : String)
    (l : List String) (h : q ∈ st.dirs) : q ∈ (mkSubdirsT st fp l).dirs := by
  induction l generalizing st with
  | nil => exact h
  | cons sub rest ih => exact ih (mkdirp_dirs_mono _ h)

theorem createT_dirs_mono {st : FsState} {q : String} (base : String)
    (l : List (String × List String)) (h : q ∈ st.dirs) :
    q ∈ (createT st base l).dirs := by
  induction l generalizing st with
  | nil => exact h
  | cons fs rest ih =>
    obtain ⟨folder, subs⟩ := fs
    exact ih (mkSubdirsT_dirs_mono _ _ (mkdirp_dirs_mono _ h))

theorem mkSubdirsT_dirs_sub {st : FsState} (fp : String) (l : List String)
    {sub : String} (h : sub ∈ l) :
    joinPath fp sub ∈ (mkSubdirsT st fp l).dirs := by
  induction l generalizing st with
  | nil => cases h
  | cons s rest ih =>
    rcases List.mem_cons.mp h with h | h
    · subst h
      show joinPath fp sub ∈ (mkSubdirsT (mkdirp st (joinPath fp sub)) fp rest).dirs
      exact mkSubdirsT_dirs_mono _ _ (mkdirp_dirs_self _ _)
    · exact ih h

theorem createT_dirs_all {st : FsState} (base : String)
    (l : List (String × List String)) :
    ∀ e ∈ l, joinPath base e.1 ∈ (createT st base l).dirs ∧
      ∀ sub ∈ e.2, joinPath (joinPath base e.1) sub ∈ (createT st base l).dirs := by
  induction l generalizing st with
  | nil => intro e he; cases he
  | cons fs rest ih =>
    obtain ⟨f, ss⟩ := fs
    intro e he
    rcases List.mem_cons.mp he with he | he
    · subst he
      constructor
      · show joinPath base f ∈
          (createT (mkSubdirsT (mkdirp st (joinPath base f)) (joinPath base f) ss)
            base rest).dirs
        exact createT_dirs_mono _ _
          (mkSubdirsT_dirs_mono _ _ (mkdirp_dirs_self _ _))
      · intro sub hsub
        show joinPath (joinPath base f) sub ∈
          (createT (mkSubdirsT (mkdirp st (joinPath base f)) (joinPath base f) ss)
            base rest).dirs
        exact createT_dirs_mono _ _ (mkSubdirsT_dirs_sub _ _ hsub)
    · exact ih e he

theorem mkSubdirsT_of_mem {st : FsState} (fp : String) (l : List String)
    (h : ∀ sub ∈ l, joinPath fp sub ∈ st.dirs) : mkSubdirsT st fp l = st := by
  induction l generalizing st with
  | nil => rfl
  | cons sub rest ih =>
    simp only [mkSubdirsT, mkdirp_of_mem (h sub (by simp))]
    exact ih (fun s hs => h s (by simp [hs]))

theorem createT_of_mem {st : FsState} (base : String)
    (l : List (String × List String))
    (h : ∀ e ∈ l, joinPath base e.1 ∈ st.dirs ∧
      ∀ sub ∈ e.2, joinPath (joinPath base e.1) sub ∈ st.dirs) :
    createT st base l = st := by
  induction l generalizing st with
  | nil => rfl
  | cons fs rest ih =>
    obtain ⟨folder, subs⟩ := fs
    have h1 := h (folder, subs) (by simp)
    simp only [createT, mkdirp_of_mem h1.1, mkSubdirsT_of_mem _ _ h1.2]
    exact ih (fun e he => h e (by simp [he]))

/-! ## Characterization of the file writes of the pipeline.

`runLast cfg out p` is the content the run leaves at path `p` (the last write
to `p`, abort at a missing id included); `generateProject` is then a pure
overlay of `runLast` on the initial file map.  This drives the idempotence,
conflict and fixed-file claims. -/

theorem alistGet?_writeFile (st : FsState) (path content p : String) :
    alistGet? (writeFile st path content).files p =
      oOr (writeAt path content p) (alistGet? st.files p) :=
  alistGet?_setFile st.files path content p

theorem genComponents_err (st : FsState) (comps : List Component) (out : String) :
    (genComponents st comps out).2 =
      if allHaveIds comps = true then none else some (.keyError "id") := by
  induction comps generalizing st with
  | nil => rfl
  | cons c rest ih =>
    cases hid : c.id? with
    | none =>
      simp [genComponents, generate_component, hid, allHaveIds]
    | some id =>
      simp [genComponents, generate_component, hid, allHaveIds, ih]

theorem genComponents_lookup (st : FsState) (comps : List Component)
    (out p : String) :
    alistGet? ((genComponents st comps out).1.files) p =
      oOr (compLast out p comps) (alistGet? st.files p) := by
  induction comps generalizing st with
  | nil => rfl
  | cons c rest ih =>
    cases hid : c.id? with
    | none => simp [genComponents, generate_component, hid, compLast, oOr_none]
    | some id =>
      simp only [genComponents, generate_component, hid, compLast]
      rw [ih, alistGet?_writeFile]
      simp only [mkdirp_files]
      rw [← oOr_assoc]

theorem generateProject_reduce (cfg : Config) (out : String) (st : FsState) :
    generateProject cfg out st =
      (match genComponents (fixedStage st out) (cfg.components?.getD []) out with
      | (st5, some e) => (st5, some e)
      | (st5, none) => (generate_theme st5 (cfg.theme?.getD []) out, none)) := by
  unfold generateProject fixedStage
  rw [create_project_structure_eq]

theorem fixedStage_lookup (st : FsState) (out p : String) :
    alistGet? (fixedStage st out).files p =
      oOr (writeAt (package_file_path out) packageContent p)
        (oOr (writeAt (app_file_path out) appContent p)
          (oOr (writeAt (index_file_path out) indexContent p)
            (alistGet? st.files p))) := by
  unfold fixedStage generate_package_json generate_app_js generate_index_js
  rw [alistGet?_writeFile, alistGet?_writeFile]
  simp only [mkdirp_files]
  rw [alistGet?_writeFile]
  simp only [mkdirp_files, createT_files]

theorem generateProject_err (cfg : Config) (out : String) (st : FsState) :
    (generateProject cfg out st).2 =
      if allHaveIds (cfg.components?.getD []) = true then none
      else some (.keyError "id") := by
  rw [generateProject_reduce]
  have he := genComponents_err (fixedStage st out) (cfg.components?.getD []) out
  rcases hg : genComponents (fixedStage st out) (cfg.components?.getD []) out
    with ⟨st5, e⟩
  rw [hg] at he
  cases e with
  | none => exact he
  | some e2 => exact he

theorem generateProject_lookup (cfg : Config) (out : String) (st : FsState)
    (p : String) :
    alistGet? ((generateProject cfg out st).1.files) p =
      oOr (runLast cfg out p) (alistGet? st.files p) := by
  rw [generateProject_reduce]
  have hl := genComponents_lookup (fixedStage st out) (cfg.components?.getD []) out p
  have he := genComponents_err (fixedStage st out) (cfg.components?.getD []) out
  rcases hg : genComponents (fixedStage st out) (cfg.components?.getD []) out
    with ⟨st5, e⟩
  rw [hg] at hl he
  rw [fixedStage_lookup] at hl
  cases e with
  | some e2 =>
    have hids : allHaveIds (cfg.components?.getD []) = false := by
      by_contra hc
      rw [eq_true_of_ne_false hc] at he
      exact Option.noConfusion he
    show alistGet? st5.files p = oOr (runLast cfg out p) (alistGet? st.files p)
    simp only [runLast, hids, Bool.false_eq_true, if_false]
    have hl2 : alistGet? st5.files p =
        oOr (compLast out p (cfg.components?.getD []))
          (oOr (writeAt (package_file_path out) packageContent p)
            (oOr (writeAt (app_file_path out) appContent p)
              (oOr (writeAt (index_file_path out) indexContent p)
                (alistGet? st.files p)))) := hl
    rw [hl2]
    simp only [oOr_assoc]
  | none =>
    have hids : allHaveIds (cfg.components?.getD []) = true := by
      by_contra hc
      rw [eq_false_of_ne_true hc] at he
      exact Option.noConfusion he
    show alistGet? (generate_theme st5 (cfg.theme?.getD []) out).files p =
      oOr (runLast cfg out p) (alistGet? st.files p)
    unfold generate_theme
    rw [alistGet?_writeFile]
    simp only [mkdirp_files]
    have hl2 : alistGet? st5.files p =
        oOr (compLast out p (cfg.components?.getD []))
          (oOr (writeAt (package_file_path out) packageContent p)
            (oOr (writeAt (app_file_path out) appContent p)
              (oOr (writeAt (index_file_path out) indexContent p)
                (alistGet? st.files p)))) := hl
    rw [hl2]
    simp only [runLast, hids, if_pos]
    simp only [oOr_assoc]

/-! ## Structural description of the file list of a successful run -/

theorem fixedStage_files {out : String} (h1 : out ≠ "")
    (h2 : strEndsWithSlash out = false) :
    (fixedStage emptyFs out).files =
      [(index_file_path out, indexContent), (app_file_path out, appContent),
       (package_file_path out, packageContent)] := by
  have e2 : setFile [(index_file_path out, indexContent)] (app_file_path out)
      appContent =
      [(index_file_path out, indexContent), (app_file_path out, appContent)] := by
    rw [setFile_fresh _ _ _ (by
      intro e he
      rw [List.mem_singleton.mp he]
      exact index_ne_app h1 h2)]
    rfl
  have e3 : setFile
      [(index_file_path out, indexContent), (app_file_path out, appContent)]
      (package_file_path out) packageContent =
      [(index_file_path out, indexContent), (app_file_path out, appContent),
       (package_file_path out, packageContent)] := by
    rw [setFile_fresh _ _ _ (by
      intro e he
      rcases List.mem_cons.mp he with he | he
      · rw [he]; exact index_ne_package h1 h2
      · rw [List.mem_singleton.mp he]; exact app_ne_package h1 h2)]
    rfl
  unfold fixedStage generate_package_json generate_app_js generate_index_js
    writeFile
  simp only [mkdirp_files, createT_files]
  show setFile (setFile (setFile emptyFs.files (index_file_path out) indexContent)
      (app_file_path out) appContent) (package_file_path out) packageContent = _
  rw [show setFile emptyFs.files (index_file_path out) indexContent =
    [(index_file_path out, indexContent)] from rfl, e2, e3]

theorem genComponents_files_append (comps : List Component) :
    ∀ (st : FsState) (out : String),
    (∀ c ∈ comps, c.id?.isSome = true) →
    (∀ c ∈ comps, ∀ e ∈ st.files, e.1 ≠ (componentFile out c).1) →
    List.Pairwise (fun a b => (componentFile out a).1 ≠ (componentFile out b).1) comps →
    ∃ d, genComponents st comps out =
      (⟨d, st.files ++ comps.map (componentFile out)⟩, none) := by
  induction comps with
  | nil => intro st out _ _ _; exact ⟨st.dirs, by simp [genComponents]⟩
  | cons c rest ih =>
    intro st out hids hfresh hpw
    have hsome := hids c (by simp)
    obtain ⟨id, hid⟩ := Option.isSome_iff_exists.mp hsome
    have hgetD : c.id?.getD "" = id := by rw [hid]; rfl
    simp only [genComponents, generate_component, hid]
    have hfiles : (writeFile (mkdirp st (dirname (component_file_path out id)))
        (component_file_path out id) (component_content c id)).files =
        st.files ++ [componentFile out c] := by
      unfold writeFile
      simp only [mkdirp_files]
      rw [setFile_fresh _ _ _ (by
        intro e he
        have := hfresh c (by simp) e he
        rw [componentFile, hgetD] at this
        exact this)]
      simp [componentFile, hgetD]
    obtain ⟨d, hd⟩ := ih (writeFile (mkdirp st (dirname (component_file_path out id)))
        (component_file_path out id) (component_content c id)) out
      (fun c' hc' => hids c' (by simp [hc']))
      (by
        intro c' hc' e he
        rw [hfiles] at he
        rcases List.mem_append.mp he with he | he
        · exact hfresh c' (by simp [hc']) e he
        · rcases List.mem_singleton.mp he with rfl
          exact fun hcontra =>
            (List.pairwise_cons.mp hpw).1 c' hc' hcontra)
      (List.pairwise_cons.mp hpw).2
    refine ⟨d, ?_⟩
    rw [hd, hfiles]
    simp

/-! ## Auxiliary lemmas for the error-handling claims -/

theorem compLast_none {out p : String} (comps : List Component)
    (hne : ∀ c ∈ comps, ∀ id, c.id? = some id → component_file_path out id ≠ p) :
    compLast out p comps = none := by
  induction comps with
  | nil => rfl
  | cons c rest ih =>
    cases hid : c.id? with
    | none => simp [compLast, hid]
    | some id =>
      simp only [compLast, hid]
      rw [ih (fun c' hc' id' hid' => hne c' (by simp [hc']) id' hid')]
      simp only [oOr_none, writeAt]
      rw [if_neg (hne c (by simp) id hid)]

theorem allHaveIds_false {comps : List Component}
    (h : ∃ c ∈ comps, c.id? = none) : allHaveIds comps = false := by
  obtain ⟨c, hc, hid⟩ := h
  induction comps with
  | nil => cases hc
  | cons a rest ih =>
    rcases List.mem_cons.mp hc with rfl | hc
    · simp [allHaveIds, hid]
    · have := ih hc
      simp only [allHaveIds, List.all_cons] at this ⊢
      simp [this]

theorem setFile_ne_nil (fs : List (String × String)) (p c : String) :
    setFile fs p c ≠ [] := by
  cases fs with
  | nil => simp [setFile]
  | cons qv rest =>
    obtain ⟨q, v⟩ := qv
    by_cases h : q = p <;> simp [setFile, h]

theorem genComponents_length_ge (comps : List Component) (st : FsState)
    (out : String) :
    st.files.length ≤ (genComponents st comps out).1.files.length := by
  induction comps generalizing st with
  | nil => exact Nat.le_refl _
  | cons c rest ih =>
    cases hid : c.id? with
    | none => simp [genComponents, generate_component, hid]
    | some id =>
      simp only [genComponents, generate_component, hid]
      refine Nat.le_trans ?_ (ih _)
      unfold writeFile
      simp only [mkdirp_files]
      exact setFile_length_ge _ _ _

theorem generateProject_files_ne_nil (cfg : Config) (out : String) (st : FsState) :
    (generateProject cfg out st).1.files ≠ [] := by
  rw [generateProject_reduce]
  have hfx : 1 ≤ (fixedStage st out).files.length := by
    unfold fixedStage generate_package_json writeFile
    have := setFile_ne_nil (generate_app_js
      (generate_index_js (createT st out PROJECT_STRUCTURE) out) out).files
      (package_file_path out) packageContent
    cases hc : setFile (generate_app_js
        (generate_index_js (createT st out PROJECT_STRUCTURE) out) out).files
        (package_file_path out) packageContent with
    | nil => exact absurd hc this
    | cons a l => simp [hc]
  have hlen := genComponents_length_ge (cfg.components?.getD []) (fixedStage st out) out
  rcases hg : genComponents (fixedStage st out) (cfg.components?.getD []) out
    with ⟨st5, e⟩
  rw [hg] at hlen
  have h5 : 1 ≤ st5.files.length := Nat.le_trans hfx hlen
  cases e with
  | some e2 =>
    intro hc
    rw [hc] at h5
    simp at h5
  | none =>
    intro hc
    have : 1 ≤ (generate_theme st5 (cfg.theme?.getD []) out).files.length := by
      refine Nat.le_trans h5 ?_
      unfold generate_theme writeFile
      simp only [mkdirp_files]
      exact setFile_length_ge _ _ _
    rw [hc] at this
    simp at this

theorem writeFile_dirs (st : FsState) (p c : String) :
    (writeFile st p c).dirs = st.dirs := rfl

theorem genComponents_dirs_mono {q : String} (comps : List Component)
    (st : FsState) (out : String) (h : q ∈ st.dirs) :
    q ∈ (genComponents st comps out).1.dirs := by
  induction comps generalizing st with
  | nil => exact h
  | cons c rest ih =>
    cases hid : c.id? with
    | none => simpa [genComponents, generate_component, hid] using h
    | some id =>
      simp only [genComponents, generate_component, hid]
      exact ih _ (by rw [writeFile_dirs]; exact mkdirp_dirs_mono _ h)

theorem generateProject_dirs_public (cfg : Config) (out : String) (st : FsState) :
    joinPath out "public" ∈ (generateProject cfg out st).1.dirs := by
  rw [generateProject_reduce]
  have hc : joinPath out "public" ∈ (createT st out PROJECT_STRUCTURE).dirs :=
    (createT_dirs_all out PROJECT_STRUCTURE ("public", [])
      (by simp [PROJECT_STRUCTURE])).1
  have hix : joinPath out "public" ∈
      (generate_index_js (createT st out PROJECT_STRUCTURE) out).dirs := by
    unfold generate_index_js
    rw [writeFile_dirs]
    exact mkdirp_dirs_mono _ hc
  have hap : joinPath out "public" ∈
      (generate_app_js (generate_index_js (createT st out PROJECT_STRUCTURE) out)
        out).dirs := by
    unfold generate_app_js
    rw [writeFile_dirs]
    exact mkdirp_dirs_mono _ hix
  have hfx : joinPath out "public" ∈ (fixedStage st out).dirs := by
    unfold fixedStage generate_package_json
    rw [writeFile_dirs]
    exact hap
  have hg5 := genComponents_dirs_mono (cfg.components?.getD []) (fixedStage st out) out hfx
  rcases hg : genComponents (fixedStage st out) (cfg.components?.getD []) out
    with ⟨st5, e⟩
  rw [hg] at hg5
  cases e with
  | some e2 => exact hg5
  | none =>
    show joinPath out "public" ∈ (generate_theme st5 (cfg.theme?.getD []) out).dirs
    unfold generate_theme
    rw [writeFile_dirs]
    exact mkdirp_dirs_mono _ hg5

/-! # Claim theorems -/

/-- C7: `create_project_structure` with the fixed `PROJECT_STRUCTURE` always
returns successfully (never an error, in particular never on already-existing
directories), ensures every directory of the fixed tree (`public/`, `src/`
and the seven `src/` subdirectories) exists under the root, writes no files,
and is idempotent. -/
theorem create_project_structure_spec (st : FsState) (base : String) :
    create_project_structure st base PROJECT_STRUCTURE =
      .ok (createT st base PROJECT_STRUCTURE)
    ∧ (createT st base PROJECT_STRUCTURE).files = st.files
    ∧ joinPath base "public" ∈ (createT st base PROJECT_STRUCTURE).dirs
    ∧ joinPath base "src" ∈ (createT st base PROJECT_STRUCTURE).dirs
    ∧ joinPath (joinPath base "src") "components" ∈ (createT st base PROJECT_STRUCTURE).dirs
    ∧ joinPath (joinPath base "src") "layouts" ∈ (createT st base PROJECT_STRUCTURE).dirs
    ∧ joinPath (joinPath base "src") "pages" ∈ (createT st base PROJECT_STRUCTURE).dirs
    ∧ joinPath (joinPath base "src") "services" ∈ (createT st base PROJECT_STRUCTURE).dirs
    ∧ joinPath (joinPath base "src") "themes" ∈ (createT st base PROJECT_STRUCTURE).dirs
    ∧ joinPath (joinPath base "src") "utils" ∈ (createT st base PROJECT_STRUCTURE).dirs
    ∧ joinPath (joinPath base "src") "mockData" ∈ (createT st base PROJECT_STRUCTURE).dirs
    ∧ create_project_structure (createT st base PROJECT_STRUCTURE) base
        PROJECT_STRUCTURE = .ok (createT st base PROJECT_STRUCTURE) := by
  have hsrc := @createT_dirs_all st base PROJECT_STRUCTURE
    ("src", ["components", "layouts", "pages", "services", "themes", "utils", "mockData"])
    (by simp [PROJECT_STRUCTURE])
  refine ⟨create_project_structure_eq st base PROJECT_STRUCTURE,
    createT_files st base PROJECT_STRUCTURE,
    (@createT_dirs_all st base PROJECT_STRUCTURE ("public", [])
      (by simp [PROJECT_STRUCTURE])).1,
    hsrc.1,
    hsrc.2 "components" (by simp),
    hsrc.2 "layouts" (by simp),
    hsrc.2 "pages" (by simp),
    hsrc.2 "services" (by simp),
    hsrc.2 "themes" (by simp),
    hsrc.2 "utils" (by simp),
    hsrc.2 "mockData" (by simp), ?_⟩
  rw [create_project_structure_eq]
  rw [createT_of_mem base PROJECT_STRUCTURE
    (fun e he => createT_dirs_all base PROJECT_STRUCTURE e he)]

/-- C6: generation is deterministic and idempotent at the byte level — a
second run of `generateProject` with the same configuration and output root,
applied to the filesystem left by the first run, leaves the content of every file
byte-identical (the pipeline derives all contents from the configuration
alone; nothing is run-dependent), and reports the same outcome. -/
theorem generateProject_idempotent (cfg : Config) (out : String) (st : FsState)
    (p : String) :
    alistGet? ((generateProject cfg out (generateProject cfg out st).1).1.files) p =
      alistGet? ((generateProject cfg out st).1.files) p
    ∧ (generateProject cfg out (generateProject cfg out st).1).2 =
      (generateProject cfg out st).2 := by
  constructor
  · simp only [generateProject_lookup]
    rw [oOr_self_absorb]
  · rw [generateProject_err, generateProject_err]

/-- C3: `generate_theme` succeeds on every theme mapping (it is a total
function of the state) and performs exactly one file write, at
`<output_root>/src/themes/theme.js`, rendering `mode` with default
`light`, `primaryColor` with default `#1976d2` and `secondaryColor` with
default `#ff4081`; on the empty mapping the defaults appear verbatim. -/
theorem generate_theme_spec (st : FsState) (theme : List (String × String))
    (out : String) (h1 : out ≠ "") (h2 : strEndsWithSlash out = false) :
    (generate_theme st theme out).files =
      setFile st.files (out ++ "/src/themes/theme.js")
        (themeTemplate (dictGet theme "mode" "light")
          (dictGet theme "primaryColor" "#1976d2")
          (dictGet theme "secondaryColor" "#ff4081"))
    ∧ (theme = [] →
        themeContent theme = themeTemplate "light" "#1976d2" "#ff4081") := by
  constructor
  · unfold generate_theme writeFile
    simp only [mkdirp_files]
    rw [theme_file_path_eval h1 h2]
    rfl
  · intro h; subst h; rfl

/-- C3 witness: the theorem instantiated at the empty theme mapping, output
root `out`, and the empty filesystem. -/
theorem generate_theme_spec_witness :
    (generate_theme emptyFs [] "out").files =
      setFile emptyFs.files ("out" ++ "/src/themes/theme.js")
        (themeTemplate (dictGet [] "mode" "light")
          (dictGet [] "primaryColor" "#1976d2")
          (dictGet [] "secondaryColor" "#ff4081"))
    ∧ ([] = ([] : List (String × String)) →
        themeContent [] = themeTemplate "light" "#1976d2" "#ff4081") :=
  generate_theme_spec emptyFs [] "out" (by decide) (by decide)

/-- C1 counterexample: Python `str.capitalize` lowercases every character
after the first, so for the component id `myChart` the generated file
declares `Mychart`, not the claimed `MyChart` (the id with only its first
letter uppercased, embedded as `upperFirst` below). -/
theorem generate_component_capitalize_counterexample :
    generate_component emptyFs ⟨some "myChart", none⟩ "out" =
      .ok ⟨["out/src/components"],
        [("out/src/components/myChart.js", componentTemplate "Mychart" "Component")]⟩
    ∧ componentTemplate "Mychart" "Component" ≠
        componentTemplate (upperFirst "myChart") "Component" := by
  constructor
  · rfl
  · decide

/-- C1 (amended): for a component with id present, `generate_component`
performs exactly one file write, at
`<output_root>/src/components/<id>.js` (id verbatim in the file name), whose
content is the component template rendered with the symbol name
`pyCapitalize id` — the id with its first character uppercased **and the
remaining characters lowercased** (Python `str.capitalize`) — and the title
`options["title"]` defaulting to `Component`; an absent `options` mapping
behaves exactly like an empty one; for id `chart` the file declares `Chart`
with title `Component`. -/
theorem generate_component_spec :
    (∀ (st : FsState) (out id : String) (opts : Option (List (String × String))),
      out ≠ "" → strEndsWithSlash out = false → strStartsWithSlash id = false →
      ∃ d, generate_component st ⟨some id, opts⟩ out =
        .ok ⟨d, setFile st.files (out ++ "/src/components/" ++ id ++ ".js")
          (componentTemplate (pyCapitalize id)
            (dictGet (opts.getD []) "title" "Component"))⟩)
    ∧ (∀ (st : FsState) (out id : String),
        generate_component st ⟨some id, none⟩ out =
          generate_component st ⟨some id, some []⟩ out)
    ∧ generate_component emptyFs ⟨some "chart", none⟩ "out" =
        .ok ⟨["out/src/components"],
          [("out/src/components/chart.js", componentTemplate "Chart" "Component")]⟩ := by
  refine ⟨?_, ?_, rfl⟩
  · intro st out id opts h1 h2 h3
    refine ⟨(mkdirp st (dirname (component_file_path out id))).dirs, ?_⟩
    show Except.ok (writeFile (mkdirp st (dirname (component_file_path out id)))
      (component_file_path out id)
      (component_content ⟨some id, opts⟩ id)) = _
    unfold writeFile
    simp only [mkdirp_files]
    rw [component_file_path_eval h1 h2 h3]
    rfl
  · intro st out id
    rfl

/-- C1 witness: the amended theorem applied at id `widget`, a concrete
options mapping with a title, output root `out` and the empty filesystem. -/
theorem generate_component_spec_witness :
    ∃ d, generate_component emptyFs ⟨some "widget", some [("title", "My Widget")]⟩
        "out" =
      .ok ⟨d, setFile emptyFs.files ("out" ++ "/src/components/" ++ "widget" ++ ".js")
        (componentTemplate (pyCapitalize "widget")
          (dictGet ((some [("title", "My Widget")]).getD []) "title" "Component"))⟩ :=
  generate_component_spec.1 emptyFs "out" "widget" (some [("title", "My Widget")])
    (by decide) (by decide) (by decide)

/-- C10: the component id is spliced into the output path unvalidated; for
the id `/evil`, `os.path.join` treats the final segment as absolute and the
computed target `/evil.js` lies outside `<output_root>/src/components/` and
outside the output root entirely. -/
theorem generate_component_path_escape :
    generate_component emptyFs ⟨some "/evil", none⟩ "out" =
      .ok ⟨["/"], [("/evil.js", componentTemplate "/evil" "Component")]⟩
    ∧ List.isPrefixOf "out/src/components/".data "/evil.js".data = false
    ∧ List.isPrefixOf "out".data "/evil.js".data = false := by
  refine ⟨rfl, by decide, by decide⟩

/-- C4: `purge_dashboard` (modelled from the spec; the function is called at
src/DashCraft.py:265 but not defined in the reviewed source) refuses an empty
target, a filesystem root, and an ancestor of the working directory; on a
safe but non-existent (or non-directory) target it reports a
`FilesystemError` rather than silently succeeding; on a safe existing
directory it removes the whole tree, the target itself included. -/
theorem purge_dashboard_spec (cwd : String) (st : FsState) (target : String) :
    purge_dashboard cwd st "" = .error (.unsafePurge "")
    ∧ purge_dashboard cwd st "/" = .error (.unsafePurge "/")
    ∧ (underPath target cwd = true →
        purge_dashboard cwd st target = .error (.unsafePurge target))
    ∧ (target ≠ "" → target ≠ "/" → underPath target cwd = false →
        target ∉ st.dirs →
        purge_dashboard cwd st target = .error (.filesystemError target))
    ∧ (target ≠ "" → target ≠ "/" → underPath target cwd = false →
        target ∈ st.dirs →
        ∃ st2, purge_dashboard cwd st target = .ok st2
          ∧ target ∉ st2.dirs
          ∧ (∀ d ∈ st2.dirs, underPath target d = false)
          ∧ (∀ f ∈ st2.files, underPath target f.1 = false)) := by
  refine ⟨?_, ?_, ?_, ?_, ?_⟩
  · unfold purge_dashboard
    rw [if_pos (Or.inl rfl)]
  · unfold purge_dashboard
    rw [if_pos (Or.inr (Or.inl rfl))]
  · intro h
    unfold purge_dashboard
    rw [if_pos (Or.inr (Or.inr h))]
  · intro h1 h2 h3 h4
    unfold purge_dashboard
    rw [if_neg (by
      rintro (h | h | h)
      · exact h1 h
      · exact h2 h
      · rw [h3] at h; exact Bool.noConfusion h)]
    rw [if_neg h4]
  · intro h1 h2 h3 h4
    unfold purge_dashboard
    rw [if_neg (by
      rintro (h | h | h)
      · exact h1 h
      · exact h2 h
      · rw [h3] at h; exact Bool.noConfusion h)]
    rw [if_pos h4]
    refine ⟨_, rfl, ?_, ?_, ?_⟩
    · intro hmem
      rw [List.mem_filter] at hmem
      have := of_decide_eq_true hmem.2
      exact this (Or.inl rfl)
    · intro d hd
      rw [List.mem_filter] at hd
      have := of_decide_eq_true hd.2
      cases hud : underPath target d
      · rfl
      · exact absurd (Or.inr hud) this
    · intro f hf
      rw [List.mem_filter] at hf
      have := of_decide_eq_true hf.2
      cases huf : underPath target f.1
      · rfl
      · exact absurd (Or.inr huf) this

/-- C4 witness: the theorem applied with working directory `/w`, a state
holding the directories `proj` and `proj/src` and one file, and targets
`/w` (ancestor), `missing` (non-existent) and `proj` (valid), discharging
the safety hypotheses concretely. -/
theorem purge_dashboard_spec_witness :
    underPath "/w" "/w/inner" = true
    ∧ purge_dashboard "/w/inner" ⟨["proj", "proj/src"], [("proj/src/a.js", "x")]⟩
        "/w" = .error (.unsafePurge "/w")
    ∧ purge_dashboard "/w" ⟨["proj", "proj/src"], [("proj/src/a.js", "x")]⟩
        "missing" = .error (.filesystemError "missing")
    ∧ ∃ st2, purge_dashboard "/w" ⟨["proj", "proj/src"], [("proj/src/a.js", "x")]⟩
          "proj" = .ok st2
        ∧ "proj" ∉ st2.dirs
        ∧ (∀ d ∈ st2.dirs, underPath "proj" d = false)
        ∧ (∀ f ∈ st2.files, underPath "proj" f.1 = false) :=
  ⟨by decide,
   (purge_dashboard_spec "/w/inner"
      ⟨["proj", "proj/src"], [("proj/src/a.js", "x")]⟩ "/w").2.2.1 (by decide),
   (purge_dashboard_spec "/w"
      ⟨["proj", "proj/src"], [("proj/src/a.js", "x")]⟩ "missing").2.2.2.1
     (by decide) (by decide) (by decide) (by decide),
   (purge_dashboard_spec "/w"
      ⟨["proj", "proj/src"], [("proj/src/a.js", "x")]⟩ "proj").2.2.2.2
     (by decide) (by decide) (by decide) (by decide)⟩

/-- C5: for a valid configuration (every component has an id, ids are
separator-free and pairwise distinct) and a well-formed output root, one
generation run succeeds and writes exactly the three fixed files
`src/index.js`, `src/App.js`, `package.json`, one file under
`src/components/` per component (in configuration order), and
`src/themes/theme.js` — so the file count is exactly N + 4. -/
theorem generateProject_file_count
    (comps : List Component) (themeOpt : Option (List (String × String)))
    (out : String) (h1 : out ≠ "") (h2 : strEndsWithSlash out = false)
    (hids : ∀ c ∈ comps, c.id?.isSome = true)
    (hslash : ∀ c ∈ comps, strStartsWithSlash (c.id?.getD "") = false)
    (hnodup : (comps.map (fun c => c.id?.getD "")).Nodup) :
    ∃ st, generateProject ⟨some comps, themeOpt⟩ out emptyFs = (st, none)
      ∧ st.files =
          [(index_file_path out, indexContent), (app_file_path out, appContent),
           (package_file_path out, packageContent)]
          ++ comps.map (componentFile out)
          ++ [(theme_file_path out, themeContent (themeOpt.getD []))]
      ∧ st.files.length = comps.length + 4 := by
  rw [generateProject_reduce]
  have hc1 : (Config.mk (some comps) themeOpt).components?.getD [] = comps := rfl
  have hc2 : (Config.mk (some comps) themeOpt).theme?.getD [] = themeOpt.getD [] := rfl
  rw [hc1, hc2]
  have hpw : comps.Pairwise
      (fun a b => (componentFile out a).1 ≠ (componentFile out b).1) := by
    have h := hnodup
    unfold List.Nodup at h
    rw [List.pairwise_map] at h
    refine h.imp_of_mem ?_
    intro a b ha hb hne heq
    exact hne (compPath_inj h1 h2 (hslash a ha) (hslash b hb) heq)
  have hfresh : ∀ c ∈ comps, ∀ e ∈ (fixedStage emptyFs out).files,
      e.1 ≠ (componentFile out c).1 := by
    intro c hc e he
    rw [fixedStage_files h1 h2] at he
    simp only [List.mem_cons, List.mem_singleton, List.not_mem_nil, or_false] at he
    rcases he with rfl | rfl | rfl
    · exact (compPath_ne_index h1 h2 (hslash c hc)).symm
    · exact (compPath_ne_app h1 h2 (hslash c hc)).symm
    · exact (compPath_ne_package h1 h2 (hslash c hc)).symm
  obtain ⟨d, hd⟩ :=
    genComponents_files_append comps (fixedStage emptyFs out) out hids hfresh hpw
  rw [fixedStage_files h1 h2] at hd
  rw [hd]
  have hfreshTheme : ∀ e ∈
      ([(index_file_path out, indexContent), (app_file_path out, appContent),
        (package_file_path out, packageContent)]
       ++ comps.map (componentFile out)),
      e.1 ≠ theme_file_path out := by
    intro e he
    rcases List.mem_append.mp he with he | he
    · simp only [List.mem_cons, List.mem_singleton, List.not_mem_nil, or_false] at he
      rcases he with rfl | rfl | rfl
      · exact (theme_ne_index h1 h2).symm
      · exact (theme_ne_app h1 h2).symm
      · exact (theme_ne_package h1 h2).symm
    · obtain ⟨c, hc, rfl⟩ := List.mem_map.mp he
      exact compPath_ne_theme h1 h2 (hslash c hc)
  have hfiles : (generate_theme
      ⟨d, [(index_file_path out, indexContent), (app_file_path out, appContent),
           (package_file_path out, packageContent)]
          ++ comps.map (componentFile out)⟩ (themeOpt.getD []) out).files =
      [(index_file_path out, indexContent), (app_file_path out, appContent),
       (package_file_path out, packageContent)]
      ++ comps.map (componentFile out)
      ++ [(theme_file_path out, themeContent (themeOpt.getD []))] := by
    unfold generate_theme writeFile
    simp only [mkdirp_files]
    exact setFile_fresh _ _ _ hfreshTheme
  refine ⟨_, rfl, hfiles, ?_⟩
  rw [hfiles]
  simp only [List.length_append, List.length_map, List.length_cons,
    List.length_nil]
  omega

/-- C5 witness: the theorem applied to the one-component configuration
`{components: [{id: chart}]}` with no theme section and output root `out`. -/
theorem generateProject_file_count_witness :
    ∃ st, generateProject ⟨some [⟨some "chart", none⟩], none⟩ "out" emptyFs =
        (st, none)
      ∧ st.files =
          [(index_file_path "out", indexContent), (app_file_path "out", appContent),
           (package_file_path "out", packageContent)]
          ++ ([⟨some "chart", none⟩] : List Component).map (componentFile "out")
          ++ [(theme_file_path "out", themeContent ((none : Option (List (String × String))).getD []))]
      ∧ st.files.length = ([⟨some "chart", none⟩] : List Component).length + 4 :=
  generateProject_file_count [⟨some "chart", none⟩] none "out"
    (by decide) (by decide) (by decide) (by decide) (by decide)

theorem runLast_eval_at (cfg : Config) {out : String} (p : String)
    (hs : ∀ c ∈ cfg.components?.getD [], strStartsWithSlash (c.id?.getD "") = false)
    (hth : theme_file_path out ≠ p)
    (hcomp : ∀ id, strStartsWithSlash id = false → component_file_path out id ≠ p) :
    runLast cfg out p =
      oOr (writeAt (package_file_path out) packageContent p)
        (oOr (writeAt (app_file_path out) appContent p)
          (writeAt (index_file_path out) indexContent p)) := by
  have hcl : compLast out p (cfg.components?.getD []) = none := by
    refine compLast_none _ ?_
    intro c hc id hid
    have := hs c hc
    rw [hid] at this
    exact hcomp id this
  simp only [runLast]
  rw [hcl]
  cases hall : allHaveIds (cfg.components?.getD [])
  · simp only [Bool.false_eq_true, if_false, oOr_none]
  · simp only [if_pos]
    rw [show writeAt (theme_file_path out) (themeContent (cfg.theme?.getD [])) p =
        none from if_neg hth]
    simp only [oOr_none]

/-- C8: the entry-point files `src/index.js`, `src/App.js` and the manifest
`package.json` have fixed contents that do not depend on the configuration:
under any two configurations whose component ids are separator-free, the run
leaves the same constant content at each of these three paths. -/
theorem fixed_outputs_config_independent (cfg1 cfg2 : Config) (out : String)
    (h1 : out ≠ "") (h2 : strEndsWithSlash out = false)
    (hs1 : ∀ c ∈ cfg1.components?.getD [], strStartsWithSlash (c.id?.getD "") = false)
    (hs2 : ∀ c ∈ cfg2.components?.getD [], strStartsWithSlash (c.id?.getD "") = false) :
    alistGet? ((generateProject cfg1 out emptyFs).1.files) (index_file_path out) =
        some indexContent
    ∧ alistGet? ((generateProject cfg2 out emptyFs).1.files) (index_file_path out) =
        some indexContent
    ∧ alistGet? ((generateProject cfg1 out emptyFs).1.files) (app_file_path out) =
        some appContent
    ∧ alistGet? ((generateProject cfg2 out emptyFs).1.files) (app_file_path out) =
        some appContent
    ∧ alistGet? ((generateProject cfg1 out emptyFs).1.files) (package_file_path out) =
        some packageContent
    ∧ alistGet? ((generateProject cfg2 out emptyFs).1.files) (package_file_path out) =
        some packageContent := by
  have hidx : ∀ (cfg : Config),
      (∀ c ∈ cfg.components?.getD [], strStartsWithSlash (c.id?.getD "") = false) →
      alistGet? ((generateProject cfg out emptyFs).1.files) (index_file_path out) =
        some indexContent := by
    intro cfg hs
    rw [generateProject_lookup,
      runLast_eval_at cfg (index_file_path out) hs (theme_ne_index h1 h2)
        (fun id hid => compPath_ne_index h1 h2 hid)]
    rw [show writeAt (package_file_path out) packageContent (index_file_path out) =
        none from if_neg (Ne.symm (index_ne_package h1 h2))]
    rw [show writeAt (app_file_path out) appContent (index_file_path out) =
        none from if_neg (Ne.symm (index_ne_app h1 h2))]
    rw [show writeAt (index_file_path out) indexContent (index_file_path out) =
        some indexContent from if_pos rfl]
    rfl
  have happ : ∀ (cfg : Config),
      (∀ c ∈ cfg.components?.getD [], strStartsWithSlash (c.id?.getD "") = false) →
      alistGet? ((generateProject cfg out emptyFs).1.files) (app_file_path out) =
        some appContent := by
    intro cfg hs
    rw [generateProject_lookup,
      runLast_eval_at cfg (app_file_path out) hs (theme_ne_app h1 h2)
        (fun id hid => compPath_ne_app h1 h2 hid)]
    rw [show writeAt (package_file_path out) packageContent (app_file_path out) =
        none from if_neg (Ne.symm (app_ne_package h1 h2))]
    rw [show writeAt (app_file_path out) appContent (app_file_path out) =
        some appContent from if_pos rfl]
    rfl
  have hpkg : ∀ (cfg : Config),
      (∀ c ∈ cfg.components?.getD [], strStartsWithSlash (c.id?.getD "") = false) →
      alistGet? ((generateProject cfg out emptyFs).1.files) (package_file_path out) =
        some packageContent := by
    intro cfg hs
    rw [generateProject_lookup,
      runLast_eval_at cfg (package_file_path out) hs (theme_ne_package h1 h2)
        (fun id hid => compPath_ne_package h1 h2 hid)]
    rw [show writeAt (package_file_path out) packageContent (package_file_path out) =
        some packageContent from if_pos rfl]
    rfl
  exact ⟨hidx cfg1 hs1, hidx cfg2 hs2, happ cfg1 hs1, happ cfg2 hs2,
    hpkg cfg1 hs1, hpkg cfg2 hs2⟩

/-- C8 witness: the theorem applied to two different concrete configurations
(one with a component and no theme, one with a theme and no components). -/
theorem fixed_outputs_config_independent_witness :
    alistGet? ((generateProject ⟨some [⟨some "chart", none⟩], none⟩ "out"
        emptyFs).1.files) (index_file_path "out") = some indexContent
    ∧ alistGet? ((generateProject ⟨none, some [("mode", "dark")]⟩ "out"
        emptyFs).1.files) (index_file_path "out") = some indexContent
    ∧ alistGet? ((generateProject ⟨some [⟨some "chart", none⟩], none⟩ "out"
        emptyFs).1.files) (app_file_path "out") = some appContent
    ∧ alistGet? ((generateProject ⟨none, some [("mode", "dark")]⟩ "out"
        emptyFs).1.files) (app_file_path "out") = some appContent
    ∧ alistGet? ((generateProject ⟨some [⟨some "chart", none⟩], none⟩ "out"
        emptyFs).1.files) (package_file_path "out") = some packageContent
    ∧ alistGet? ((generateProject ⟨none, some [("mode", "dark")]⟩ "out"
        emptyFs).1.files) (package_file_path "out") = some packageContent :=
  fixed_outputs_config_independent ⟨some [⟨some "chart", none⟩], none⟩
    ⟨none, some [("mode", "dark")]⟩ "out"
    (by decide) (by decide) (by decide) (by decide)

/-- C2 counterexample: two components with the same id `a`; the run reports
no error whatsoever (there is no `ConflictError` anywhere in the code — the
error type of the pipeline only carries `KeyError`/`FileExistsError`), and
the single file `out/src/components/a.js` holds the rendering of the second
component, silently overwriting the first. -/
theorem duplicate_id_counterexample :
    (generateProject ⟨some [⟨some "a", some [("title", "first")]⟩,
        ⟨some "a", some [("title", "second")]⟩], none⟩ "out" emptyFs).2 = none
    ∧ alistGet? ((generateProject ⟨some [⟨some "a", some [("title", "first")]⟩,
        ⟨some "a", some [("title", "second")]⟩], none⟩ "out" emptyFs).1.files)
        "out/src/components/a.js" = some (componentTemplate "A" "second") :=
  ⟨rfl, rfl⟩

/-- C2 (amended): when two components share an id, `generateProject` raises
no error and writes both renderings to the same
`src/components/<id>.js` path, the content of the later component silently
overwriting that of the earlier (last writer wins); no conflict is detected. -/
theorem duplicate_id_amended (out id t1 t2 : String) (h1 : out ≠ "")
    (h2 : strEndsWithSlash out = false) (h3 : strStartsWithSlash id = false) :
    (generateProject ⟨some [⟨some id, some [("title", t1)]⟩,
        ⟨some id, some [("title", t2)]⟩], none⟩ out emptyFs).2 = none
    ∧ alistGet? ((generateProject ⟨some [⟨some id, some [("title", t1)]⟩,
        ⟨some id, some [("title", t2)]⟩], none⟩ out emptyFs).1.files)
        (component_file_path out id) =
      some (componentTemplate (pyCapitalize id) t2) := by
  constructor
  · rw [generateProject_err]
    rfl
  · rw [generateProject_lookup]
    have hred : (Config.mk (some [⟨some id, some [("title", t1)]⟩,
        ⟨some id, some [("title", t2)]⟩]) none).components?.getD [] =
        [⟨some id, some [("title", t1)]⟩, ⟨some id, some [("title", t2)]⟩] := rfl
    have hcl : compLast out (component_file_path out id)
        [⟨some id, some [("title", t1)]⟩, ⟨some id, some [("title", t2)]⟩] =
        some (componentTemplate (pyCapitalize id) t2) := by
      simp only [compLast]
      rw [show writeAt (component_file_path out id)
          (component_content ⟨some id, some [("title", t2)]⟩ id)
          (component_file_path out id) =
          some (component_content ⟨some id, some [("title", t2)]⟩ id)
        from if_pos rfl]
      rfl
    simp only [runLast, hred]
    rw [hcl]
    rw [show allHaveIds [(⟨some id, some [("title", t1)]⟩ : Component),
        ⟨some id, some [("title", t2)]⟩] = true from rfl]
    simp only [if_pos]
    rw [show writeAt (theme_file_path out)
        (themeContent ((Config.mk (some [⟨some id, some [("title", t1)]⟩,
          ⟨some id, some [("title", t2)]⟩]) none).theme?.getD []))
        (component_file_path out id) = none
      from if_neg (Ne.symm (compPath_ne_theme h1 h2 h3))]
    rfl

/-- C2 witness: the amended theorem applied at output root `out`, id `a`,
titles `first` and `second`. -/
theorem duplicate_id_amended_witness :
    (generateProject ⟨some [⟨some "a", some [("title", "first")]⟩,
        ⟨some "a", some [("title", "second")]⟩], none⟩ "out" emptyFs).2 = none
    ∧ alistGet? ((generateProject ⟨some [⟨some "a", some [("title", "first")]⟩,
        ⟨some "a", some [("title", "second")]⟩], none⟩ "out" emptyFs).1.files)
        (component_file_path "out" "a") =
      some (componentTemplate (pyCapitalize "a") "second") :=
  duplicate_id_amended "out" "a" "first" "second"
    (by decide) (by decide) (by decide)

/-- C9 counterexample: with a single component lacking `id`, the run does
abort with the `KeyError` for key `id` — but only after the directory
scaffold and the fixed files have been created: the resulting filesystem has
non-empty files and directories, so the failure is not free of side
effects. -/
theorem missing_id_counterexample :
    (generateProject ⟨some [⟨none, none⟩], none⟩ "out" emptyFs).2 =
      some (GenError.keyError "id")
    ∧ (generateProject ⟨some [⟨none, none⟩], none⟩ "out" emptyFs).1.files =
        [(index_file_path "out", indexContent), (app_file_path "out", appContent),
         (package_file_path "out", packageContent)]
    ∧ (generateProject ⟨some [⟨none, none⟩], none⟩ "out" emptyFs).1.dirs ≠ [] :=
  ⟨rfl, rfl, by decide⟩

/-- C9 (amended): a component missing its `id` makes the run abort with
the Python `KeyError` for key `id` when the component loop reaches it — but the
detection is not before filesystem mutation: by then the directory scaffold
(e.g. `public/`) has been created and files (the entry points and manifest,
plus the files of any earlier components) have been written. -/
theorem missing_id_amended (comps : List Component)
    (themeOpt : Option (List (String × String))) (out : String)
    (h : ∃ c ∈ comps, c.id? = none) :
    (generateProject ⟨some comps, themeOpt⟩ out emptyFs).2 =
      some (GenError.keyError "id")
    ∧ (generateProject ⟨some comps, themeOpt⟩ out emptyFs).1.files ≠ []
    ∧ joinPath out "public" ∈
        (generateProject ⟨some comps, themeOpt⟩ out emptyFs).1.dirs := by
  refine ⟨?_, generateProject_files_ne_nil _ _ _, generateProject_dirs_public _ _ _⟩
  rw [generateProject_err]
  have hall : allHaveIds ((Config.mk (some comps) themeOpt).components?.getD []) =
      false := allHaveIds_false h
  rw [hall]
  rfl

/-- C9 witness: the amended theorem applied to a two-component configuration
whose second component lacks `id`. -/
theorem missing_id_amended_witness :
    (generateProject ⟨some [⟨some "chart", none⟩, ⟨none, none⟩], none⟩ "x"
        emptyFs).2 = some (GenError.keyError "id")
    ∧ (generateProject ⟨some [⟨some "chart", none⟩, ⟨none, none⟩], none⟩ "x"
        emptyFs).1.files ≠ []
    ∧ joinPath "x" "public" ∈
        (generateProject ⟨some [⟨some "chart", none⟩, ⟨none, none⟩], none⟩ "x"
          emptyFs).1.dirs :=
  missing_id_amended [⟨some "chart", none⟩, ⟨none, none⟩] none "x"
    ⟨⟨none, none⟩, by decide, rfl⟩

end DashCraft
